import Mathlib

/-!
Shallow embedding of `minesweeper.py` (classes `Sentence` and `MinesweeperAI`).

Cells are pairs of integers.  Python `set`s become `Finset`s; the integer
`count` of a sentence becomes `Int` (Python ints can go negative via
`count -= 1`).

A crucial point of the source: `Sentence` declares

    safes = set()
    mines = set()

at class level, so every `Sentence` instance shares the same two mutable
sets.  We model this shared pool as an explicit piece of state `SWorld`
threaded through every sentence operation.  Mutating methods of the Python
class become functions returning the updated sentence together with the
updated shared pool.
-/

namespace Minesweeper

abbrev Cell := Int × Int

/-- The class-level attributes `Sentence.safes` and `Sentence.mines`:
a single pool shared by every `Sentence` instance. -/
structure SWorld where
  safes : Finset Cell
  mines : Finset Cell
deriving DecidableEq

/-- Per-instance state of a `Sentence`: the fields set in `__init__`. -/
structure SentenceData where
  cells : Finset Cell
  count : Int
deriving DecidableEq

namespace Sentence

/-- `Sentence.mark_mine(cell)`: if the cell is in `self.cells`, remove it and
decrement `self.count`; always add the cell to the shared `mines` pool. -/
def mark_mine (s : SentenceData) (w : SWorld) (cell : Cell) :
    SentenceData × SWorld :=
  (if cell ∈ s.cells then ⟨s.cells.erase cell, s.count - 1⟩ else s,
   { w with mines := insert cell w.mines })

/-- `Sentence.mark_safe(cell)`: add the cell to the shared `safes` pool and
remove it from `self.cells` if present.  `count` is untouched. -/
def mark_safe (s : SentenceData) (w : SWorld) (cell : Cell) :
    SentenceData × SWorld :=
  (⟨s.cells.erase cell, s.count⟩, { w with safes := insert cell w.safes })

/-- `Sentence.mark_if_deterministic()`.  The Python loops
`for cell in set(self.cells): self.mark_safe(cell)` (resp. `mark_mine`); the
net effect of iterating over the snapshot of `self.cells` is: all cells are
erased and the whole set is poured into the shared pool.  In the all-mines
branch each `mark_mine` also decrements `count` once per cell, taking it from
`len(cells)` down to `0`. -/
def mark_if_deterministic (s : SentenceData) (w : SWorld) :
    SentenceData × SWorld × Bool :=
  if s.count = 0 then
    (⟨∅, s.count⟩, { w with safes := w.safes ∪ s.cells }, true)
  else if (s.cells.card : Int) = s.count then
    (⟨∅, s.count - s.cells.card⟩, { w with mines := w.mines ∪ s.cells }, true)
  else
    (s, w, false)

/-- `Sentence.is_empty()`. -/
def is_empty (s : SentenceData) : Bool :=
  decide (s.cells = ∅ ∧ s.count = 0)

/-- `Sentence.known_mines()`: runs `mark_if_deterministic` (a mutation!) and
then returns the shared `mines` pool — the whole pool, not just the cells of
`self`.  Result: (updated sentence, updated pool, returned set). -/
def known_mines (s : SentenceData) (w : SWorld) :
    SentenceData × SWorld × Finset Cell :=
  let r := mark_if_deterministic s w
  (r.1, r.2.1, r.2.1.mines)

/-- `Sentence.known_safes()`: same shape as `known_mines`. -/
def known_safes (s : SentenceData) (w : SWorld) :
    SentenceData × SWorld × Finset Cell :=
  let r := mark_if_deterministic s w
  (r.1, r.2.1, r.2.1.safes)

/-- `Sentence.reduce_sentence(other)`, for `self` and `other` distinct objects
unless `sameObj` is set (the Python guard `self is other` is object identity;
every call site in the agent passes distinct objects).

Faithfulness notes, all visible in the source:
* the guard reads `self.is_empty() or other.is_empty() == set() or self is
  other`; `other.is_empty()` returns a `bool`, and a `bool` never equals
  `set()`, so the middle disjunct is constantly false and an empty `other`
  is NOT filtered out;
* in the `self.cells ⊆ other.cells` branch the code swaps contents: `other`
  receives `self`'s cells and count, while `self` receives the difference
  sentence, which is then run through `mark_if_deterministic`;
* the final branch is the "overlap" rule: the sentence with the larger count
  (`other` on ties) is `largeSen`, the other `smallSen`; `largeSen.cells`
  aliases the underlying set of the corresponding sentence, so
  `smallSen.mark_safe` mutates the actual small sentence.  The net effect of
  `for cell in smallSen.cells.difference(intersection): smallSen.mark_safe(cell)`
  is to erase `small.cells \ large.cells` from the small sentence and pour
  those cells into the shared `safes` pool.

Result: (new self, new other, new shared pool, returned bool). -/
def reduce_sentence (sameObj : Bool) (self other : SentenceData) (w : SWorld) :
    SentenceData × SentenceData × SWorld × Bool :=
  if is_empty self || sameObj then
    (self, other, w, false)
  else if self.cells ⊆ other.cells then
    let temp : SentenceData := ⟨other.cells \ self.cells, other.count - self.count⟩
    let r := mark_if_deterministic temp w
    (r.1, self, r.2.1, true)
  else if other.cells ⊆ self.cells then
    let diff : SentenceData := ⟨self.cells \ other.cells, self.count - other.count⟩
    let r := mark_if_deterministic diff w
    (r.1, other, r.2.1, true)
  else
    let largeIsSelf : Bool := self.count > other.count
    let large := if largeIsSelf then self else other
    let small := if largeIsSelf then other else self
    let inter := large.cells ∩ small.cells
    let cellsInLargeNotInBoth := large.cells \ inter
    if large.count - (cellsInLargeNotInBoth.card : Int) = small.count then
      let toMark := small.cells \ inter
      let small' : SentenceData := ⟨small.cells \ toMark, small.count⟩
      let w' : SWorld := { w with safes := w.safes ∪ toMark }
      if largeIsSelf then (self, small', w', true) else (small', other, w', true)
    else
      (self, other, w, false)

end Sentence

/-- State of a `MinesweeperAI` instance together with the class-level pools
of `Sentence` (`sSafes`, `sMines`), which the agent's operations read and
write through its sentences. -/
structure AIState where
  height : Nat
  width : Nat
  moves_made : Finset Cell
  mines : Finset Cell
  safes : Finset Cell
  knowledge : List SentenceData
  sSafes : Finset Cell
  sMines : Finset Cell
deriving DecidableEq

/-- A fresh `MinesweeperAI(height, width)` in a fresh process: all sets empty,
no knowledge. -/
def AIState.init (height width : Nat) : AIState :=
  ⟨height, width, ∅, ∅, ∅, [], ∅, ∅⟩

/-- `MinesweeperAI.get_nearby_cells(cell)`: the 3×3 block around the cell minus
the cell itself, skipping any `(i, j)` with `i == self.height or j == self.width
or i < 0 or j < 0` (note: equality with the bound, exactly as in the source). -/
def get_nearby_cells (height width : Nat) (cell : Cell) : Finset Cell :=
  (({cell.1 - 1, cell.1, cell.1 + 1} : Finset Int) ×ˢ
      ({cell.2 - 1, cell.2, cell.2 + 1} : Finset Int)).filter
    fun p => p ≠ cell ∧ ¬(p.1 = (height : Int) ∨ p.2 = (width : Int) ∨ p.1 < 0 ∨ p.2 < 0)

namespace AI

/-- `MinesweeperAI.mark_safe(cell)`: add to the agent's `safes`, then
`sentence.mark_safe(cell)` for every sentence in `knowledge`.  Each of those
calls also inserts the cell into the shared pool, so the shared pool changes
only when `knowledge` is nonempty. -/
def mark_safe (st : AIState) (cell : Cell) : AIState :=
  { st with
    safes := insert cell st.safes
    knowledge := st.knowledge.map fun s => ⟨s.cells.erase cell, s.count⟩
    sSafes := if st.knowledge.isEmpty then st.sSafes else insert cell st.sSafes }

/-- `MinesweeperAI.mark_mine(cell)`: add to the agent's `mines`, then
`sentence.mark_mine(cell)` for every sentence in `knowledge`. -/
def mark_mine (st : AIState) (cell : Cell) : AIState :=
  { st with
    mines := insert cell st.mines
    knowledge := st.knowledge.map fun s =>
      if cell ∈ s.cells then ⟨s.cells.erase cell, s.count - 1⟩ else s
    sMines := if st.knowledge.isEmpty then st.sMines else insert cell st.sMines }

/-- Net effect of `for c in S: self.mark_safe(c)` over a snapshot `S`
(the cells of `S` are pairwise distinct, so the iteration order is
irrelevant). -/
def markSafeAll (st : AIState) (S : Finset Cell) : AIState :=
  { st with
    safes := st.safes ∪ S
    knowledge := st.knowledge.map fun s => ⟨s.cells \ S, s.count⟩
    sSafes := if st.knowledge.isEmpty then st.sSafes else st.sSafes ∪ S }

/-- Net effect of `for c in S: self.mark_mine(c)` over a snapshot `S`: each
sentence loses `S` from its cells and its count drops by the number of its
cells that were in `S`. -/
def markMineAll (st : AIState) (S : Finset Cell) : AIState :=
  { st with
    mines := st.mines ∪ S
    knowledge := st.knowledge.map fun s =>
      ⟨s.cells \ S, s.count - ((s.cells ∩ S).card : Int)⟩
    sMines := if st.knowledge.isEmpty then st.sMines else st.sMines ∪ S }

/-- `for sen in self.knowledge: sen.mark_if_deterministic()`, threading the
shared pool through the list in order. -/
def markAllDeterministic : List SentenceData → SWorld → List SentenceData × SWorld
  | [], w => ([], w)
  | s :: rest, w =>
    let r := Sentence.mark_if_deterministic s w
    let rr := markAllDeterministic rest r.2.1
    (r.1 :: rr.1, rr.2)

/-- `MinesweeperAI.update_knowledge_marks_from(sentence)`: `sentence.safes`
and `sentence.mines` are the class-level shared pools, the same for every
argument, so the parameter does not affect the result.  The method pushes
every cell of the shared safes pool through `self.mark_safe`, then every cell
of the shared mines pool (snapshotted before the safes loop ran; that loop
only grows the safes pool, so the snapshot equals the current pool) through
`self.mark_mine`, and finally runs `mark_if_deterministic` on every
sentence. -/
def update_knowledge_marks_from (st : AIState) : AIState :=
  let minesSnap := st.sMines
  let st1 := markSafeAll st st.sSafes
  let st2 := markMineAll st1 minesSnap
  let r := markAllDeterministic st2.knowledge ⟨st2.sSafes, st2.sMines⟩
  { st2 with knowledge := r.1, sSafes := r.2.safes, sMines := r.2.mines }

/-- `MinesweeperAI.update_marks_to(newKnoledge)`: mark every agent-known safe
cell, then every agent-known mine cell, on the given sentence.  The sentence's
own `mark_safe`/`mark_mine` pour the agent's pools into the shared pools. -/
def update_marks_to (st : AIState) (s : SentenceData) : SentenceData × AIState :=
  let s1 : SentenceData := ⟨s.cells \ st.safes, s.count⟩
  let s2 : SentenceData :=
    ⟨s1.cells \ st.mines, s1.count - ((s1.cells ∩ st.mines).card : Int)⟩
  (s2, { st with sSafes := st.sSafes ∪ st.safes, sMines := st.sMines ∪ st.mines })

/-- `self.update_marks_to(self.knowledge[i])`: the sentence object lives in
the list, so the rewrite lands back at index `i`. -/
def update_marks_to_idx (st : AIState) (i : Nat) : AIState :=
  let s := st.knowledge.getD i ⟨∅, 0⟩
  let r := update_marks_to st s
  { r.2 with knowledge := r.2.knowledge.set i r.1 }

/-- `self.knowledge[i].reduce_sentence(self.knowledge[j])` for `i ≠ j`:
both objects are mutated in place, and the shared pool with them. -/
def reduce_at (st : AIState) (i j : Nat) : AIState :=
  let si := st.knowledge.getD i ⟨∅, 0⟩
  let sj := st.knowledge.getD j ⟨∅, 0⟩
  let r := Sentence.reduce_sentence false si sj ⟨st.sSafes, st.sMines⟩
  { st with
    knowledge := (st.knowledge.set i r.1).set j r.2.1
    sSafes := r.2.2.1.safes
    sMines := r.2.2.1.mines }

/-- One iteration of the doubly-nested loop in `conclude_new_information`
at indices `(i, j)`. -/
def concludeBody (st : AIState) (i j : Nat) : AIState :=
  let st1 := update_knowledge_marks_from st
  let st2 := update_marks_to_idx st1 i
  if i = j then st2
  else update_knowledge_marks_from (reduce_at st2 i j)

/-- The two nested loops of `conclude_new_information`.  The length of
`knowledge` never changes inside the loops (every operation maps or sets the
list), so `range(len(self.knowledge))` and `range(i, len(self.knowledge))`
both enumerate `0..n-1` resp. `i..n-1` for the entry length `n`. -/
def concludePass (st : AIState) : AIState :=
  let n := st.knowledge.length
  (List.range n).foldl
    (fun acc i => ((List.range n).drop i).foldl (fun acc2 j => concludeBody acc2 i j) acc)
    st

/-- `MinesweeperAI.conclude_new_information()`, with explicit fuel for the
self-recursion.  After the loops, `for sen in list(self.knowledge): if
sen.is_empty(): self.knowledge.remove(sen)` removes exactly the empty
sentences (`list.remove` matches by `Sentence.__eq__`, i.e. equal cells and
count, and only an empty sentence equals an empty sentence), i.e. a filter.
The recursion fires when `safes` or `mines` grew during the pass. -/
def conclude_new_information : Nat → AIState → AIState
  | 0, st => st
  | fuel + 1, st =>
    let st1 := concludePass st
    let st2 := { st1 with knowledge := st1.knowledge.filter fun s => !(Sentence.is_empty s) }
    if st.safes = st2.safes ∧ st.mines = st2.mines then st2
    else conclude_new_information fuel st2

/-- `MinesweeperAI.add_knowledge(cell, count)`, with fuel passed on to
`conclude_new_information`.  If `mark_if_deterministic` on the fresh sentence
returns true the sentence is empty, so the `update_knowledge_marks_from`
branch never appends a non-scrubbed sentence. -/
def add_knowledge (fuel : Nat) (st : AIState) (cell : Cell) (count : Int) : AIState :=
  let st1 := { st with moves_made := insert cell st.moves_made }
  let st2 := mark_safe st1 cell
  let nk : SentenceData := ⟨get_nearby_cells st2.height st2.width cell, count⟩
  let r := update_marks_to st2 nk
  let st3 := r.2
  let r2 := Sentence.mark_if_deterministic r.1 ⟨st3.sSafes, st3.sMines⟩
  let nk' := r2.1
  let st4 := { st3 with sSafes := r2.2.1.safes, sMines := r2.2.1.mines }
  let st5 := if r2.2.2 then update_knowledge_marks_from st4 else st4
  let st6 :=
    if !(Sentence.is_empty nk') then { st5 with knowledge := st5.knowledge ++ [nk'] }
    else st5
  conclude_new_information fuel st6

/-- `MinesweeperAI.make_random_move()`: iterates `i` over `range(self.width)`
and `j` over `range(self.height)` — in that order, exactly as in the source —
returning the first `(i, j)` in neither `moves_made` nor `mines`; falls off
the end with `None`. -/
def make_random_move (st : AIState) : Option Cell :=
  ((List.range st.width).flatMap fun i =>
      (List.range st.height).map fun j => ((i : Int), (j : Int))).find?
    fun c => decide (c ∉ st.moves_made ∧ c ∉ st.mines)

end AI

/-- A mine assignment `M` (the set of cells that actually hold mines)
satisfies a sentence when exactly `count` of the sentence's cells lie in
`M`.  This is the intended semantics of `Sentence` per its docstring: "a set
of board cells, and a count of the number of those cells which are mines". -/
def satisfiesAssignment (M : Finset Cell) (s : SentenceData) : Prop :=
  ((s.cells ∩ M).card : Int) = s.count

instance (M : Finset Cell) (s : SentenceData) : Decidable (satisfiesAssignment M s) :=
  inferInstanceAs (Decidable (_ = _))

/-- Pointwise growth of the agent's three monotone sets between two states:
`safes`, `mines` and `moves_made` of the first are contained in those of the
second. -/
def stLe (a b : AIState) : Prop :=
  a.safes ⊆ b.safes ∧ a.mines ⊆ b.mines ∧ a.moves_made ⊆ b.moves_made

/-- The live-sentence disjointness invariant: every sentence in the agent's
knowledge list has cells disjoint from the agent's `safes` and from its
`mines`. -/
def knowledgeDisjoint (st : AIState) : Prop :=
  ∀ s ∈ st.knowledge, s.cells ∩ st.safes = ∅ ∧ s.cells ∩ st.mines = ∅

instance (st : AIState) : Decidable (knowledgeDisjoint st) :=
  inferInstanceAs (Decidable (∀ s ∈ st.knowledge, _ ∧ _))

/-! ## Helper lemmas about the branches of the sentence operations -/

theorem mark_if_deterministic_nontrivial (s : SentenceData) (w : SWorld)
    (h0 : s.count ≠ 0) (hc : (s.cells.card : Int) ≠ s.count) :
    Sentence.mark_if_deterministic s w = (s, w, false) := by
  rw [Sentence.mark_if_deterministic, if_neg h0, if_neg hc]

theorem reduce_sentence_first_subset (self other : SentenceData) (w : SWorld)
    (hne : Sentence.is_empty self = false) (hsub : self.cells ⊆ other.cells) :
    Sentence.reduce_sentence false self other w =
      ((Sentence.mark_if_deterministic
          ⟨other.cells \ self.cells, other.count - self.count⟩ w).1, self,
       (Sentence.mark_if_deterministic
          ⟨other.cells \ self.cells, other.count - self.count⟩ w).2.1, true) := by
  rw [Sentence.reduce_sentence]
  simp [hne, hsub]

theorem reduce_sentence_second_subset (self other : SentenceData) (w : SWorld)
    (hne : Sentence.is_empty self = false) (hnsub : ¬ self.cells ⊆ other.cells)
    (hsub : other.cells ⊆ self.cells) :
    Sentence.reduce_sentence false self other w =
      ((Sentence.mark_if_deterministic
          ⟨self.cells \ other.cells, self.count - other.count⟩ w).1, other,
       (Sentence.mark_if_deterministic
          ⟨self.cells \ other.cells, self.count - other.count⟩ w).2.1, true) := by
  rw [Sentence.reduce_sentence]
  simp [hne, hnsub, hsub]

/-! ## Monotonicity machinery -/

theorem stLe_refl (a : AIState) : stLe a a :=
  ⟨Finset.Subset.refl _, Finset.Subset.refl _, Finset.Subset.refl _⟩

theorem stLe_trans {a b c : AIState} (h1 : stLe a b) (h2 : stLe b c) : stLe a c :=
  ⟨h1.1.trans h2.1, h1.2.1.trans h2.2.1, h1.2.2.trans h2.2.2⟩

theorem stLe_foldl {β : Type} (f : AIState → β → AIState)
    (h : ∀ a b, stLe a (f a b)) (l : List β) (a : AIState) :
    stLe a (l.foldl f a) := by
  induction l generalizing a with
  | nil => exact stLe_refl a
  | cons b t ih => exact stLe_trans (h a b) (ih (f a b))

theorem stLe_mark_safe (st : AIState) (cell : Cell) : stLe st (AI.mark_safe st cell) :=
  ⟨Finset.subset_insert _ _, Finset.Subset.refl _, Finset.Subset.refl _⟩

theorem stLe_mark_mine (st : AIState) (cell : Cell) : stLe st (AI.mark_mine st cell) :=
  ⟨Finset.Subset.refl _, Finset.subset_insert _ _, Finset.Subset.refl _⟩

theorem stLe_markSafeAll (st : AIState) (S : Finset Cell) :
    stLe st (AI.markSafeAll st S) :=
  ⟨Finset.subset_union_left, Finset.Subset.refl _, Finset.Subset.refl _⟩

theorem stLe_markMineAll (st : AIState) (S : Finset Cell) :
    stLe st (AI.markMineAll st S) :=
  ⟨Finset.Subset.refl _, Finset.subset_union_left, Finset.Subset.refl _⟩

theorem stLe_update_knowledge_marks_from (st : AIState) :
    stLe st (AI.update_knowledge_marks_from st) :=
  ⟨Finset.subset_union_left, Finset.subset_union_left, Finset.Subset.refl _⟩

theorem stLe_update_marks_to_idx (st : AIState) (i : Nat) :
    stLe st (AI.update_marks_to_idx st i) :=
  ⟨Finset.Subset.refl _, Finset.Subset.refl _, Finset.Subset.refl _⟩

theorem stLe_reduce_at (st : AIState) (i j : Nat) : stLe st (AI.reduce_at st i j) :=
  ⟨Finset.Subset.refl _, Finset.Subset.refl _, Finset.Subset.refl _⟩

theorem stLe_concludeBody (st : AIState) (i j : Nat) :
    stLe st (AI.concludeBody st i j) := by
  unfold AI.concludeBody
  split
  · exact stLe_trans (stLe_update_knowledge_marks_from st) (stLe_update_marks_to_idx _ i)
  · exact stLe_trans (stLe_update_knowledge_marks_from st)
      (stLe_trans (stLe_update_marks_to_idx _ i)
        (stLe_trans (stLe_reduce_at _ i j) (stLe_update_knowledge_marks_from _)))

theorem stLe_concludePass (st : AIState) : stLe st (AI.concludePass st) :=
  stLe_foldl _
    (fun a i => stLe_foldl _ (fun a2 j => stLe_concludeBody a2 i j) _ a) _ st

theorem stLe_conclude (fuel : Nat) (st : AIState) :
    stLe st (AI.conclude_new_information fuel st) := by
  induction fuel generalizing st with
  | zero => exact stLe_refl st
  | succ n ih =>
    rw [AI.conclude_new_information]
    have hle : stLe st
        { AI.concludePass st with
          knowledge := (AI.concludePass st).knowledge.filter
            fun s => !(Sentence.is_empty s) } :=
      let h := stLe_concludePass st
      ⟨h.1, h.2.1, h.2.2⟩
    split
    · exact hle
    · exact stLe_trans hle (ih _)

theorem stLe_add_knowledge (fuel : Nat) (st : AIState) (cell : Cell) (count : Int) :
    stLe st (AI.add_knowledge fuel st cell count) := by
  unfold AI.add_knowledge
  refine stLe_trans ?_ (stLe_conclude fuel _)
  split
  · split
    · exact ⟨(Finset.subset_insert _ _).trans Finset.subset_union_left,
        Finset.subset_union_left, Finset.subset_insert _ _⟩
    · exact ⟨Finset.subset_insert _ _, Finset.Subset.refl _, Finset.subset_insert _ _⟩
  · split
    · exact ⟨(Finset.subset_insert _ _).trans Finset.subset_union_left,
        Finset.subset_union_left, Finset.subset_insert _ _⟩
    · exact ⟨Finset.subset_insert _ _, Finset.Subset.refl _, Finset.subset_insert _ _⟩

/-! ## Disjointness-invariant machinery -/

theorem inter_eq_empty_mono {a a' b : Finset Cell} (h : a' ⊆ a) (hab : a ∩ b = ∅) :
    a' ∩ b = ∅ := by
  rw [Finset.eq_empty_iff_forall_not_mem] at hab ⊢
  intro x hx
  rw [Finset.mem_inter] at hx
  exact hab x (Finset.mem_inter.mpr ⟨h hx.1, hx.2⟩)

theorem union_inter_empty {a b c : Finset Cell} (h1 : a ∩ c = ∅) (h2 : b ∩ c = ∅) :
    (a ∪ b) ∩ c = ∅ := by
  rw [Finset.union_inter_distrib_right, h1, h2, Finset.union_empty]

theorem mark_if_deterministic_cells_subset (s : SentenceData) (w : SWorld) :
    (Sentence.mark_if_deterministic s w).1.cells ⊆ s.cells := by
  rw [Sentence.mark_if_deterministic]
  split
  · exact Finset.empty_subset _
  · split
    · exact Finset.empty_subset _
    · exact Finset.Subset.refl _

theorem mark_if_deterministic_true_cells (s : SentenceData) (w : SWorld)
    (h : (Sentence.mark_if_deterministic s w).2.2 = true) :
    (Sentence.mark_if_deterministic s w).1.cells = ∅ := by
  rw [Sentence.mark_if_deterministic] at h ⊢
  split at h
  · rename_i hc
    rw [if_pos hc]
  · rename_i hc
    split at h
    · rename_i hcard
      rw [if_neg hc, if_pos hcard]
    · simp at h

theorem mark_if_deterministic_of_false (s : SentenceData) (w : SWorld)
    (h : (Sentence.mark_if_deterministic s w).2.2 = false) :
    Sentence.mark_if_deterministic s w = (s, w, false) := by
  rw [Sentence.mark_if_deterministic] at h ⊢
  split at h
  · simp at h
  · rename_i hc
    split at h
    · simp at h
    · rename_i hcard
      rw [if_neg hc, if_neg hcard]

theorem reduce_sentence_cells_subset (b : Bool) (self other : SentenceData) (w : SWorld) :
    (Sentence.reduce_sentence b self other w).1.cells ⊆ self.cells ∪ other.cells ∧
    (Sentence.reduce_sentence b self other w).2.1.cells ⊆ self.cells ∪ other.cells := by
  simp only [Sentence.reduce_sentence]
  repeat' split
  all_goals constructor
  all_goals
    first
      | exact Finset.subset_union_left
      | exact Finset.subset_union_right
      | exact (mark_if_deterministic_cells_subset _ _).trans
          (Finset.sdiff_subset.trans Finset.subset_union_right)
      | exact (mark_if_deterministic_cells_subset _ _).trans
          (Finset.sdiff_subset.trans Finset.subset_union_left)
      | exact Finset.sdiff_subset.trans Finset.subset_union_right
      | exact Finset.sdiff_subset.trans Finset.subset_union_left

theorem knowledgeDisjoint_mark_safe {st : AIState} (cell : Cell)
    (h : knowledgeDisjoint st) : knowledgeDisjoint (AI.mark_safe st cell) := by
  intro s' hs'
  simp only [AI.mark_safe, List.mem_map] at hs'
  obtain ⟨s, hs, rfl⟩ := hs'
  obtain ⟨h1, h2⟩ := h s hs
  constructor
  · rw [Finset.eq_empty_iff_forall_not_mem]
    intro x hx
    simp only [AI.mark_safe, Finset.mem_inter, Finset.mem_erase, Finset.mem_insert] at hx
    rcases hx with ⟨⟨hne, hxc⟩, heq | hsf⟩
    · exact hne heq
    · exact Finset.eq_empty_iff_forall_not_mem.mp h1 x (Finset.mem_inter.mpr ⟨hxc, hsf⟩)
  · exact inter_eq_empty_mono (Finset.erase_subset _ _) h2

theorem knowledgeDisjoint_markSafeAll {st : AIState} (S : Finset Cell)
    (h : knowledgeDisjoint st) : knowledgeDisjoint (AI.markSafeAll st S) := by
  intro s' hs'
  simp only [AI.markSafeAll, List.mem_map] at hs'
  obtain ⟨s, hs, rfl⟩ := hs'
  obtain ⟨h1, h2⟩ := h s hs
  constructor
  · rw [Finset.eq_empty_iff_forall_not_mem]
    intro x hx
    simp only [AI.markSafeAll, Finset.mem_inter, Finset.mem_sdiff, Finset.mem_union] at hx
    rcases hx with ⟨⟨hxc, hxS⟩, hsf | hS⟩
    · exact Finset.eq_empty_iff_forall_not_mem.mp h1 x (Finset.mem_inter.mpr ⟨hxc, hsf⟩)
    · exact hxS hS
  · exact inter_eq_empty_mono Finset.sdiff_subset h2

theorem knowledgeDisjoint_markMineAll {st : AIState} (S : Finset Cell)
    (h : knowledgeDisjoint st) : knowledgeDisjoint (AI.markMineAll st S) := by
  intro s' hs'
  simp only [AI.markMineAll, List.mem_map] at hs'
  obtain ⟨s, hs, rfl⟩ := hs'
  obtain ⟨h1, h2⟩ := h s hs
  constructor
  · exact inter_eq_empty_mono Finset.sdiff_subset h1
  · rw [Finset.eq_empty_iff_forall_not_mem]
    intro x hx
    simp only [AI.markMineAll, Finset.mem_inter, Finset.mem_sdiff, Finset.mem_union] at hx
    rcases hx with ⟨⟨hxc, hxS⟩, hmn | hS⟩
    · exact Finset.eq_empty_iff_forall_not_mem.mp h2 x (Finset.mem_inter.mpr ⟨hxc, hmn⟩)
    · exact hxS hS

theorem markAllDeterministic_mem (l : List SentenceData) (w : SWorld) :
    ∀ s' ∈ (AI.markAllDeterministic l w).1, ∃ s ∈ l, s'.cells ⊆ s.cells := by
  induction l generalizing w with
  | nil =>
    intro s' hs'
    simp [AI.markAllDeterministic] at hs'
  | cons a t ih =>
    intro s' hs'
    rw [AI.markAllDeterministic] at hs'
    rcases List.mem_cons.mp hs' with rfl | hmem
    · exact ⟨a, List.mem_cons_self a t, mark_if_deterministic_cells_subset a w⟩
    · obtain ⟨s, hs, hsub⟩ := ih _ s' hmem
      exact ⟨s, List.mem_cons_of_mem a hs, hsub⟩

theorem knowledgeDisjoint_ukmf {st : AIState} (h : knowledgeDisjoint st) :
    knowledgeDisjoint (AI.update_knowledge_marks_from st) := by
  have h2 := knowledgeDisjoint_markMineAll st.sMines
    (knowledgeDisjoint_markSafeAll st.sSafes h)
  intro s' hs'
  obtain ⟨s, hs, hsub⟩ := markAllDeterministic_mem _ _ s' hs'
  obtain ⟨d1, d2⟩ := h2 s hs
  exact ⟨inter_eq_empty_mono hsub d1, inter_eq_empty_mono hsub d2⟩

theorem knowledgeDisjoint_umti {st : AIState} (i : Nat) (h : knowledgeDisjoint st) :
    knowledgeDisjoint (AI.update_marks_to_idx st i) := by
  intro s' hs'
  rcases List.mem_or_eq_of_mem_set hs' with hmem | rfl
  · exact h s' hmem
  · constructor
    · rw [Finset.eq_empty_iff_forall_not_mem]
      intro x hx
      simp only [AI.update_marks_to, Finset.mem_inter, Finset.mem_sdiff] at hx
      exact hx.1.1.2 hx.2
    · rw [Finset.eq_empty_iff_forall_not_mem]
      intro x hx
      simp only [AI.update_marks_to, Finset.mem_inter, Finset.mem_sdiff] at hx
      exact hx.1.2 hx.2

theorem getD_cells_disjoint {st : AIState} (h : knowledgeDisjoint st) (i : Nat) :
    (st.knowledge.getD i ⟨∅, 0⟩).cells ∩ st.safes = ∅ ∧
    (st.knowledge.getD i ⟨∅, 0⟩).cells ∩ st.mines = ∅ := by
  by_cases hi : i < st.knowledge.length
  · have hmem : st.knowledge.getD i ⟨∅, 0⟩ ∈ st.knowledge := by
      rw [List.getD_eq_getElem _ _ hi]
      exact List.getElem_mem _
    exact h _ hmem
  · rw [List.getD_eq_default _ _ (Nat.le_of_not_lt hi)]
    exact ⟨Finset.empty_inter _, Finset.empty_inter _⟩

theorem knowledgeDisjoint_reduce_at {st : AIState} (i j : Nat)
    (h : knowledgeDisjoint st) : knowledgeDisjoint (AI.reduce_at st i j) := by
  obtain ⟨hi1, hi2⟩ := getD_cells_disjoint h i
  obtain ⟨hj1, hj2⟩ := getD_cells_disjoint h j
  intro s' hs'
  rcases List.mem_or_eq_of_mem_set hs' with hs' | rfl
  · rcases List.mem_or_eq_of_mem_set hs' with hmem | rfl
    · exact h s' hmem
    · have hsub := (reduce_sentence_cells_subset false
        (st.knowledge.getD i ⟨∅, 0⟩) (st.knowledge.getD j ⟨∅, 0⟩)
        ⟨st.sSafes, st.sMines⟩).1
      exact ⟨inter_eq_empty_mono hsub (union_inter_empty hi1 hj1),
        inter_eq_empty_mono hsub (union_inter_empty hi2 hj2)⟩
  · have hsub := (reduce_sentence_cells_subset false
      (st.knowledge.getD i ⟨∅, 0⟩) (st.knowledge.getD j ⟨∅, 0⟩)
      ⟨st.sSafes, st.sMines⟩).2
    exact ⟨inter_eq_empty_mono hsub (union_inter_empty hi1 hj1),
      inter_eq_empty_mono hsub (union_inter_empty hi2 hj2)⟩

theorem knowledgeDisjoint_concludeBody {st : AIState} (i j : Nat)
    (h : knowledgeDisjoint st) : knowledgeDisjoint (AI.concludeBody st i j) := by
  unfold AI.concludeBody
  split
  · exact knowledgeDisjoint_umti i (knowledgeDisjoint_ukmf h)
  · exact knowledgeDisjoint_ukmf
      (knowledgeDisjoint_reduce_at i j (knowledgeDisjoint_umti i (knowledgeDisjoint_ukmf h)))

theorem knowledgeDisjoint_foldl {β : Type} (f : AIState → β → AIState)
    (hf : ∀ a b, knowledgeDisjoint a → knowledgeDisjoint (f a b)) (l : List β) :
    ∀ {a : AIState}, knowledgeDisjoint a → knowledgeDisjoint (l.foldl f a) := by
  induction l with
  | nil => exact fun h => h
  | cons b t ih => exact fun h => ih (hf _ b h)

theorem knowledgeDisjoint_concludePass {st : AIState} (h : knowledgeDisjoint st) :
    knowledgeDisjoint (AI.concludePass st) := by
  unfold AI.concludePass
  exact knowledgeDisjoint_foldl _
    (fun a i ha => knowledgeDisjoint_foldl _
      (fun a2 j ha2 => knowledgeDisjoint_concludeBody i j ha2) _ ha) _ h

theorem knowledgeDisjoint_conclude (fuel : Nat) {st : AIState}
    (h : knowledgeDisjoint st) :
    knowledgeDisjoint (AI.conclude_new_information fuel st) := by
  induction fuel generalizing st with
  | zero => exact h
  | succ n ih =>
    rw [AI.conclude_new_information]
    have h2 : knowledgeDisjoint
        { AI.concludePass st with
          knowledge := (AI.concludePass st).knowledge.filter
            fun s => !(Sentence.is_empty s) } := by
      intro s hs
      exact knowledgeDisjoint_concludePass h s (List.mem_of_mem_filter hs)
    split
    · exact h2
    · exact ih h2

theorem knowledgeDisjoint_append {st : AIState} (nk : SentenceData)
    (h : knowledgeDisjoint st)
    (h1 : nk.cells ∩ st.safes = ∅) (h2 : nk.cells ∩ st.mines = ∅) :
    knowledgeDisjoint { st with knowledge := st.knowledge ++ [nk] } := by
  intro s hs
  rcases List.mem_append.mp hs with hs | hs
  · exact h s hs
  · rw [List.mem_singleton.mp hs]
    exact ⟨h1, h2⟩

theorem knowledgeDisjoint_add_knowledge (fuel : Nat) {st : AIState} (cell : Cell)
    (count : Int) (h : knowledgeDisjoint st) :
    knowledgeDisjoint (AI.add_knowledge fuel st cell count) := by
  have h1 : knowledgeDisjoint { st with moves_made := insert cell st.moves_made } :=
    fun s hs => h s hs
  have h2 := knowledgeDisjoint_mark_safe cell h1
  simp only [AI.add_knowledge]
  apply knowledgeDisjoint_conclude
  split
  · split
    · rename_i _ hb
      apply knowledgeDisjoint_append
      · exact knowledgeDisjoint_ukmf (fun s hs => h2 s hs)
      · rw [mark_if_deterministic_true_cells _ _ hb]
        exact Finset.empty_inter _
      · rw [mark_if_deterministic_true_cells _ _ hb]
        exact Finset.empty_inter _
    · rename_i _ hb
      apply knowledgeDisjoint_append
      · exact fun s hs => h2 s hs
      · rw [congrArg Prod.fst (mark_if_deterministic_of_false _ _ (Bool.of_not_eq_true hb))]
        rw [Finset.eq_empty_iff_forall_not_mem]
        intro x hx
        simp only [AI.update_marks_to, Finset.mem_inter, Finset.mem_sdiff] at hx
        exact hx.1.1.2 hx.2
      · rw [congrArg Prod.fst (mark_if_deterministic_of_false _ _ (Bool.of_not_eq_true hb))]
        rw [Finset.eq_empty_iff_forall_not_mem]
        intro x hx
        simp only [AI.update_marks_to, Finset.mem_inter, Finset.mem_sdiff] at hx
        exact hx.1.2 hx.2
  · split
    · exact knowledgeDisjoint_ukmf (fun s hs => h2 s hs)
    · exact fun s hs => h2 s hs

/-! ## Claims -/

/-- C1 (code_bug evidence).  The claim says Sentence instances own independent
derived-knowledge state, so that `Sentence({(3,3),(3,4),(3,5)}, 1)` has empty
`known_safes()` regardless of operations previously performed on other
instances.  In the source, `safes` and `mines` are class attributes shared by
every instance: after another sentence marks `(9,9)` safe, the fresh
non-trivial sentence reports `known_safes() = {(9,9)} ≠ ∅`.  (The repo's own
`test.py` comments assert the claimed per-instance behaviour, which the code
therefore contradicts.) -/
theorem C1_sharedPool_leaks_across_instances :
    (Sentence.known_safes ⟨({(3,3), (3,4), (3,5)} : Finset Cell), 1⟩
        (Sentence.mark_safe ⟨({(0,0)} : Finset Cell), 1⟩ ⟨∅, ∅⟩ ((9,9) : Cell)).2).2.2
      = ({(9,9)} : Finset Cell) ∧
    (Sentence.known_safes ⟨({(3,3), (3,4), (3,5)} : Finset Cell), 1⟩
        (Sentence.mark_safe ⟨({(0,0)} : Finset Cell), 1⟩ ⟨∅, ∅⟩ ((9,9) : Cell)).2).2.2
      ≠ (∅ : Finset Cell) := by
  constructor
  · rfl
  · decide

/-- C2 (code_bug evidence).  The claim says `make_random_move` only returns
in-bounds cells (row < height, col < width) outside `moves_made ∪ mines`, and
returns none once those sets cover the board.  The source iterates `i` over
`range(width)` and `j` over `range(height)` and returns `(i, j)`, so on a
1×2 board with `(0,0)` already played it returns `(1, 0)` — row 1 is out of
bounds for height 1 — and even when the whole board `{(0,0),(0,1)}` is
covered it still returns `(1, 0)` instead of none. -/
theorem C2_make_random_move_transposed :
    AI.make_random_move
        { AIState.init 1 2 with moves_made := ({(0,0)} : Finset Cell) }
      = some ((1, 0) : Cell) ∧
    AI.make_random_move
        { AIState.init 1 2 with moves_made := ({(0,0), (0,1)} : Finset Cell) }
      = some ((1, 0) : Cell) := by
  exact ⟨rfl, rfl⟩

/-- C3 (counterexample).  The claim says that when `self.cells ⊆ other.cells`
(distinct, non-empty sentences), `reduce_sentence` rewrites `other` to the
difference `old other − old self` and leaves `self` unchanged.  At
`self = ({(0,0),(0,1)}, 1)`, `other = ({(0,0),(0,1),(0,2),(0,3)}, 2)` the
call returns true but `other` ends as `({(0,0),(0,1)}, 1)` — not the
difference — and `self` is changed (it receives the difference). -/
theorem C3_subset_branch_counterexample :
    (Sentence.reduce_sentence false ⟨({(0,0), (0,1)} : Finset Cell), 1⟩
        ⟨({(0,0), (0,1), (0,2), (0,3)} : Finset Cell), 2⟩ ⟨∅, ∅⟩).2.2.2 = true ∧
    (Sentence.reduce_sentence false ⟨({(0,0), (0,1)} : Finset Cell), 1⟩
        ⟨({(0,0), (0,1), (0,2), (0,3)} : Finset Cell), 2⟩ ⟨∅, ∅⟩).2.1.cells
      ≠ ({(0,0), (0,1), (0,2), (0,3)} : Finset Cell) \ ({(0,0), (0,1)} : Finset Cell) ∧
    (Sentence.reduce_sentence false ⟨({(0,0), (0,1)} : Finset Cell), 1⟩
        ⟨({(0,0), (0,1), (0,2), (0,3)} : Finset Cell), 2⟩ ⟨∅, ∅⟩).1
      ≠ ⟨({(0,0), (0,1)} : Finset Cell), 1⟩ := by
  refine ⟨rfl, by decide, by decide⟩

/-- C3 (amended).  For distinct non-empty sentences, subset reduction returns
true and rewrites BOTH objects in the `self.cells ⊆ other.cells` case:
`other` receives `self`'s old cells and count while `self` receives the
difference sentence (`old other − old self` cells, `other.count − self.count`
count); in the symmetric case (`other.cells ⊆ self.cells` only), `self` is
rewritten to the difference and `other` is unchanged, as the claim said.  In
both cases the difference sentence is additionally passed through
`mark_if_deterministic`; the hypotheses below state it is non-trivial, so
that step is the identity and the shared pool `w` is untouched. -/
theorem C3_subset_reduction_amended (self other : SentenceData) (w : SWorld)
    (hne : Sentence.is_empty self = false) :
    (self.cells ⊆ other.cells →
      other.count - self.count ≠ 0 →
      ((other.cells \ self.cells).card : Int) ≠ other.count - self.count →
      Sentence.reduce_sentence false self other w =
        (⟨other.cells \ self.cells, other.count - self.count⟩, self, w, true)) ∧
    (¬ self.cells ⊆ other.cells →
      other.cells ⊆ self.cells →
      self.count - other.count ≠ 0 →
      ((self.cells \ other.cells).card : Int) ≠ self.count - other.count →
      Sentence.reduce_sentence false self other w =
        (⟨self.cells \ other.cells, self.count - other.count⟩, other, w, true)) := by
  constructor
  · intro hsub hc hcard
    rw [reduce_sentence_first_subset self other w hne hsub,
      mark_if_deterministic_nontrivial _ _ hc hcard]
  · intro hnsub hsub hc hcard
    rw [reduce_sentence_second_subset self other w hne hnsub hsub,
      mark_if_deterministic_nontrivial _ _ hc hcard]

/-- C3 (witness): the amended theorem applied at the counterexample's input. -/
theorem C3_subset_reduction_amended_witness :
    Sentence.reduce_sentence false ⟨({(0,0), (0,1)} : Finset Cell), 1⟩
        ⟨({(0,0), (0,1), (0,2), (0,3)} : Finset Cell), 2⟩ ⟨∅, ∅⟩ =
      (⟨({(0,0), (0,1), (0,2), (0,3)} : Finset Cell) \ ({(0,0), (0,1)} : Finset Cell),
          2 - 1⟩,
       ⟨({(0,0), (0,1)} : Finset Cell), 1⟩, ⟨∅, ∅⟩, true) :=
  (C3_subset_reduction_amended ⟨({(0,0), (0,1)} : Finset Cell), 1⟩
      ⟨({(0,0), (0,1), (0,2), (0,3)} : Finset Cell), 2⟩ ⟨∅, ∅⟩ (by decide)).1
    (by decide) (by decide) (by decide)

/-- C4 (code_bug evidence).  The claim (and the spec's edge-case policy) says
reduction against a fully-resolved empty sentence is a no-op returning false
in both directions.  The source's guard `other.is_empty() == set()` compares
a bool to a set and is always false, so an empty `other` slips through; since
`∅ ⊆ self.cells`, the second subset branch fires and returns true — and when
`self` happens to be trivial, `mark_if_deterministic` even empties it and
pours its cells into the shared safes pool.  First conjunct: `s = ({(0,0),
(0,1)}, 1)` reduced with the empty sentence returns true (claim says false).
Second conjunct: trivial `s = ({(0,0)}, 0)` is emptied and `(0,0)` lands in
the shared safes pool. -/
theorem C4_empty_sentence_not_inert :
    (Sentence.reduce_sentence false ⟨({(0,0), (0,1)} : Finset Cell), 1⟩
        ⟨(∅ : Finset Cell), 0⟩ ⟨∅, ∅⟩).2.2.2 = true ∧
    Sentence.reduce_sentence false ⟨({(0,0)} : Finset Cell), 0⟩
        ⟨(∅ : Finset Cell), 0⟩ ⟨∅, ∅⟩
      = (⟨∅, 0⟩, ⟨∅, 0⟩, ⟨({(0,0)} : Finset Cell), ∅⟩, true) := by
  constructor
  · rfl
  · decide

/-- C5 (code_bug evidence).  The claim (and the spec) says `add_knowledge`
fails with a contradiction error whenever the resulting state would contain a
sentence whose count lies outside `[0, |cells|]`.  The source has no raise
statement and no contradiction check at all: on a fresh 2×2 agent,
`add_knowledge((0,0), 5)` returns normally and leaves the knowledge base
holding the sentence `({(0,1),(1,0),(1,1)}, 5)` whose count 5 exceeds its 3
cells. -/
theorem C5_no_contradiction_error :
    (AI.add_knowledge 3 (AIState.init 2 2) ((0, 0) : Cell) 5).knowledge
      = [⟨({(0,1), (1,0), (1,1)} : Finset Cell), 5⟩] ∧
    ((AI.add_knowledge 3 (AIState.init 2 2) ((0, 0) : Cell) 5).knowledge.all
        fun s => decide ((s.cells.card : Int) < s.count)) = true := by
  constructor
  · decide
  · decide

/-- C6 (confirmed).  Trivial resolution by exhaustion on a fresh sentence
(no prior marks anywhere, so the shared pool is empty): `count = 0` yields
`known_safes() = C`, `known_mines() = ∅` and `mark_if_deterministic` returns
true; `count = |C| > 0` yields `known_mines() = C`, `known_safes() = ∅` and
true; otherwise false and neither set is derived. -/
theorem C6_trivial_resolution (C : Finset Cell) (count : Int) :
    (count = 0 →
      (Sentence.known_safes ⟨C, count⟩ ⟨∅, ∅⟩).2.2 = C ∧
      (Sentence.known_mines ⟨C, count⟩ ⟨∅, ∅⟩).2.2 = ∅ ∧
      (Sentence.mark_if_deterministic ⟨C, count⟩ ⟨∅, ∅⟩).2.2 = true) ∧
    (0 < count → (C.card : Int) = count →
      (Sentence.known_mines ⟨C, count⟩ ⟨∅, ∅⟩).2.2 = C ∧
      (Sentence.known_safes ⟨C, count⟩ ⟨∅, ∅⟩).2.2 = ∅ ∧
      (Sentence.mark_if_deterministic ⟨C, count⟩ ⟨∅, ∅⟩).2.2 = true) ∧
    (count ≠ 0 → (C.card : Int) ≠ count →
      (Sentence.known_safes ⟨C, count⟩ ⟨∅, ∅⟩).2.2 = ∅ ∧
      (Sentence.known_mines ⟨C, count⟩ ⟨∅, ∅⟩).2.2 = ∅ ∧
      (Sentence.mark_if_deterministic ⟨C, count⟩ ⟨∅, ∅⟩).2.2 = false) := by
  refine ⟨fun h0 => ?_, fun hpos hcard => ?_, fun h0 hcard => ?_⟩
  · simp [Sentence.known_safes, Sentence.known_mines, Sentence.mark_if_deterministic, h0]
  · have h0 : count ≠ 0 := by omega
    simp [Sentence.known_safes, Sentence.known_mines, Sentence.mark_if_deterministic,
      h0, hcard]
  · simp [Sentence.known_safes, Sentence.known_mines, Sentence.mark_if_deterministic,
      h0, hcard]

/-- C6 (witness): the spec's own examples, `({(0,0),(0,1),(1,0)}, 0)` safe,
`({(6,6),(6,7)}, 2)` all mines, `({(3,3),(3,4),(3,5)}, 1)` undetermined. -/
theorem C6_trivial_resolution_witness :
    ((Sentence.known_safes ⟨({(0,0), (0,1), (1,0)} : Finset Cell), 0⟩ ⟨∅, ∅⟩).2.2
        = ({(0,0), (0,1), (1,0)} : Finset Cell)) ∧
    ((Sentence.known_mines ⟨({(6,6), (6,7)} : Finset Cell), 2⟩ ⟨∅, ∅⟩).2.2
        = ({(6,6), (6,7)} : Finset Cell)) ∧
    ((Sentence.known_safes ⟨({(3,3), (3,4), (3,5)} : Finset Cell), 1⟩ ⟨∅, ∅⟩).2.2
        = (∅ : Finset Cell)) :=
  ⟨((C6_trivial_resolution ({(0,0), (0,1), (1,0)} : Finset Cell) 0).1 rfl).1,
   ((C6_trivial_resolution ({(6,6), (6,7)} : Finset Cell) 2).2.1 (by decide) (by decide)).1,
   ((C6_trivial_resolution ({(3,3), (3,4), (3,5)} : Finset Cell) 1).2.2 (by decide) (by decide)).1⟩

/-- C7 (confirmed).  Soundness of the non-subset "overlap" rule.  For two
sentences where neither cell set contains the other, with `L` the one the
code selects as `largeSen` (`self` when `self.count > other.count`, here
taken as the first argument with `L.count > S.count`), if the trigger
`L.count - |L.cells \ (L.cells ∩ S.cells)| = S.count` holds then
`reduce_sentence` marks exactly the cells `S.cells \ (L.cells ∩ S.cells)`
safe (pouring them into the shared safes pool and erasing them from the
small sentence), and every mine assignment `M` satisfying both sentences
contains none of those cells — the rule never marks a possible mine safe. -/
theorem C7_overlap_rule_sound (L S : SentenceData) (w : SWorld) (M : Finset Cell)
    (hne : Sentence.is_empty L = false)
    (h1 : ¬ L.cells ⊆ S.cells) (h2 : ¬ S.cells ⊆ L.cells)
    (hgt : L.count > S.count)
    (htrig : L.count - ((L.cells \ (L.cells ∩ S.cells)).card : Int) = S.count)
    (hL : satisfiesAssignment M L) (hS : satisfiesAssignment M S) :
    Sentence.reduce_sentence false L S w =
      (L, ⟨S.cells \ (S.cells \ (L.cells ∩ S.cells)), S.count⟩,
       { w with safes := w.safes ∪ (S.cells \ (L.cells ∩ S.cells)) }, true) ∧
    ∀ c ∈ S.cells \ (L.cells ∩ S.cells), c ∉ M := by
  constructor
  · have htrig' : L.count - ((L.cells \ S.cells).card : Int) = S.count := by
      rwa [Finset.sdiff_inter_self_left] at htrig
    rw [Sentence.reduce_sentence]
    simp [hne, h1, h2, hgt, htrig']
  · intro c hc hcM
    have hcS : c ∈ S.cells := (Finset.mem_sdiff.mp hc).1
    have hcI : c ∉ L.cells ∩ S.cells := (Finset.mem_sdiff.mp hc).2
    have hsplit : L.cells ∩ M =
        ((L.cells \ (L.cells ∩ S.cells)) ∩ M) ∪ ((L.cells ∩ S.cells) ∩ M) := by
      ext x
      simp only [Finset.mem_inter, Finset.mem_union, Finset.mem_sdiff]
      tauto
    have hdisj : Disjoint ((L.cells \ (L.cells ∩ S.cells)) ∩ M)
        ((L.cells ∩ S.cells) ∩ M) := by
      refine Finset.disjoint_left.mpr fun x hx hx' => ?_
      exact (Finset.mem_sdiff.mp (Finset.mem_inter.mp hx).1).2 (Finset.mem_inter.mp hx').1
    have hcardsplit : (L.cells ∩ M).card =
        ((L.cells \ (L.cells ∩ S.cells)) ∩ M).card + ((L.cells ∩ S.cells) ∩ M).card := by
      rw [hsplit, Finset.card_union_of_disjoint hdisj]
    have hle1 : ((L.cells \ (L.cells ∩ S.cells)) ∩ M).card
        ≤ (L.cells \ (L.cells ∩ S.cells)).card :=
      Finset.card_le_card Finset.inter_subset_left
    have hsub2 : (L.cells ∩ S.cells) ∩ M ⊆ S.cells ∩ M :=
      Finset.inter_subset_inter Finset.inter_subset_right (Finset.Subset.refl M)
    have hL' : ((L.cells ∩ M).card : Int) = L.count := hL
    have hS' : ((S.cells ∩ M).card : Int) = S.count := hS
    have hbf : (S.cells ∩ M).card ≤ ((L.cells ∩ S.cells) ∩ M).card := by omega
    have heq : (L.cells ∩ S.cells) ∩ M = S.cells ∩ M :=
      Finset.eq_of_subset_of_card_le hsub2 hbf
    have hcmem : c ∈ (L.cells ∩ S.cells) ∩ M := by
      rw [heq]; exact Finset.mem_inter.mpr ⟨hcS, hcM⟩
    exact hcI (Finset.mem_inter.mp hcmem).1

/-- C7 (witness): the theorem applied at `L = ({(0,0),(0,1),(0,2)}, 2)`,
`S = ({(0,1),(0,2),(0,3)}, 1)`, assignment `M = {(0,0),(0,1)}`: the rule
rewrites the small sentence to the intersection and pours `{(0,3)}` into the
safes pool, and indeed `(0,3)` is not a mine of `M`. -/
theorem C7_overlap_rule_sound_witness :
    Sentence.reduce_sentence false ⟨({(0,0), (0,1), (0,2)} : Finset Cell), 2⟩
        ⟨({(0,1), (0,2), (0,3)} : Finset Cell), 1⟩ ⟨∅, ∅⟩ =
      (⟨({(0,0), (0,1), (0,2)} : Finset Cell), 2⟩,
       ⟨({(0,1), (0,2), (0,3)} : Finset Cell) \
          (({(0,1), (0,2), (0,3)} : Finset Cell) \
            (({(0,0), (0,1), (0,2)} : Finset Cell) ∩ ({(0,1), (0,2), (0,3)} : Finset Cell))),
        1⟩,
       ⟨∅ ∪ (({(0,1), (0,2), (0,3)} : Finset Cell) \
          (({(0,0), (0,1), (0,2)} : Finset Cell) ∩ ({(0,1), (0,2), (0,3)} : Finset Cell))), ∅⟩,
       true) ∧
    ((0, 3) : Cell) ∉ ({(0,0), (0,1)} : Finset Cell) :=
  ⟨(C7_overlap_rule_sound ⟨({(0,0), (0,1), (0,2)} : Finset Cell), 2⟩
      ⟨({(0,1), (0,2), (0,3)} : Finset Cell), 1⟩ ⟨∅, ∅⟩ ({(0,0), (0,1)} : Finset Cell)
      (by decide) (by decide) (by decide) (by decide) (by decide) (by decide) (by decide)).1,
   (C7_overlap_rule_sound ⟨({(0,0), (0,1), (0,2)} : Finset Cell), 2⟩
      ⟨({(0,1), (0,2), (0,3)} : Finset Cell), 1⟩ ⟨∅, ∅⟩ ({(0,0), (0,1)} : Finset Cell)
      (by decide) (by decide) (by decide) (by decide) (by decide) (by decide) (by decide)).2
     ((0, 3) : Cell) (by decide)⟩

/-- C8 (confirmed).  Live-sentence disjointness invariant: if every sentence
in the knowledge list has cells disjoint from the agent's `safes` and `mines`
before a call to `add_knowledge`, the same holds when the call returns (for
every closure fuel, i.e. at every recursion depth of
`conclude_new_information`; a fresh agent satisfies the invariant vacuously,
so it holds after every call of any run). -/
theorem C8_live_sentence_disjointness (fuel : Nat) (st : AIState) (cell : Cell)
    (count : Int) (h : knowledgeDisjoint st) :
    knowledgeDisjoint (AI.add_knowledge fuel st cell count) :=
  knowledgeDisjoint_add_knowledge fuel cell count h

/-- C8 (witness): a fresh 4×4 agent (trivially disjoint) keeps the invariant
through `add_knowledge((1,2), 2)`. -/
theorem C8_live_sentence_disjointness_witness :
    knowledgeDisjoint (AI.add_knowledge 2 (AIState.init 4 4) ((1, 2) : Cell) 2) :=
  C8_live_sentence_disjointness 2 (AIState.init 4 4) ((1, 2) : Cell) 2 (by decide)

/-- C9 (confirmed).  Monotonic growth of agent knowledge: across
`MinesweeperAI.mark_safe`, `MinesweeperAI.mark_mine` and `add_knowledge`
(any fuel for the closure recursion — the sets only ever receive `insert`s
and unions, at every recursion depth), the agent's `safes`, `mines` and
`moves_made` sets only grow: every cell present before is present after. -/
theorem C9_monotonic_growth (st : AIState) (cell : Cell) (count : Int) (fuel : Nat) :
    stLe st (AI.mark_safe st cell) ∧ stLe st (AI.mark_mine st cell) ∧
    stLe st (AI.add_knowledge fuel st cell count) :=
  ⟨stLe_mark_safe st cell, stLe_mark_mine st cell,
   stLe_add_knowledge fuel st cell count⟩

/-- C10 (confirmed).  `known_safes()`/`known_mines()` are not pure queries:
on a trivial sentence each first runs `mark_if_deterministic`, so the
sentence comes back emptied — cells gone, and in the all-mines case the count
decremented to 0 — which differs from the input sentence. -/
theorem C10_known_queries_mutate (s : SentenceData) (w : SWorld) :
    (s.count = 0 → s.cells ≠ ∅ →
      (Sentence.known_safes s w).1 = ⟨∅, 0⟩ ∧
      (Sentence.known_mines s w).1 = ⟨∅, 0⟩ ∧
      (Sentence.known_safes s w).1 ≠ s) ∧
    ((s.cells.card : Int) = s.count → 0 < s.count →
      (Sentence.known_mines s w).1 = ⟨∅, 0⟩ ∧
      (Sentence.known_safes s w).1 = ⟨∅, 0⟩ ∧
      (Sentence.known_mines s w).1 ≠ s) := by
  constructor
  · intro h0 hne
    have hres : (Sentence.known_safes s w).1 = ⟨∅, 0⟩ := by
      simp [Sentence.known_safes, Sentence.mark_if_deterministic, h0]
    have hres' : (Sentence.known_mines s w).1 = ⟨∅, 0⟩ := by
      simp [Sentence.known_mines, Sentence.mark_if_deterministic, h0]
    refine ⟨hres, hres', ?_⟩
    rw [hres]
    intro hcontra
    exact hne (congrArg SentenceData.cells hcontra).symm
  · intro hcard hpos
    have h0 : s.count ≠ 0 := by omega
    have hz : s.count - (s.cells.card : Int) = 0 := by omega
    have hres : (Sentence.known_mines s w).1 = ⟨∅, 0⟩ := by
      simp only [Sentence.known_mines, Sentence.mark_if_deterministic, if_neg h0,
        if_pos hcard, hz]
    have hres' : (Sentence.known_safes s w).1 = ⟨∅, 0⟩ := by
      simp only [Sentence.known_safes, Sentence.mark_if_deterministic, if_neg h0,
        if_pos hcard, hz]
    refine ⟨hres, hres', ?_⟩
    rw [hres]
    intro hcontra
    rw [← hcontra] at hpos
    exact absurd hpos (by norm_num)

/-- C10 (witness): the all-safes example `({(0,0),(0,1),(1,0)}, 0)` and the
all-mines example `({(6,6),(6,7)}, 2)` both come back emptied. -/
theorem C10_known_queries_mutate_witness :
    (Sentence.known_safes ⟨({(0,0), (0,1), (1,0)} : Finset Cell), 0⟩ ⟨∅, ∅⟩).1
      = ⟨∅, 0⟩ ∧
    (Sentence.known_mines ⟨({(6,6), (6,7)} : Finset Cell), 2⟩ ⟨∅, ∅⟩).1
      = ⟨∅, 0⟩ :=
  ⟨((C10_known_queries_mutate ⟨({(0,0), (0,1), (1,0)} : Finset Cell), 0⟩
      ⟨∅, ∅⟩).1 rfl (by decide)).1,
   ((C10_known_queries_mutate ⟨({(6,6), (6,7)} : Finset Cell), 2⟩
      ⟨∅, ∅⟩).2 (by decide) (by decide)).1⟩

end Minesweeper
